import Mathlib

/-!
Verification of the feed-harvesting pipeline in `fetch_feeds.py`.

The script is a linear batch transform: fetch feeds, normalize entries
(title/link/summary/date), classify each entry with an ordered list of
regular-expression rules, filter to the last 14 days, derive ids and
"prelims" facts, deduplicate on (title, link), sort descending by
(date, category, title), and serialize.

This file is a shallow embedding of that pipeline: Python `str` becomes
`String` (compared as code-point lists, matching Python string ordering),
`datetime.date` becomes a `Date` record of numerals, `time.struct_time`
becomes `TimeStruct`, machine-level hashing is implemented directly over
byte lists as natural numbers reduced mod 2^32, and the per-feed
`try/except` becomes an `Except` value per feed.  Case folding is ASCII
(the inputs exercised by the rules are ASCII).
-/

set_option maxRecDepth 20000

namespace FetchFeeds

/-! ## Dates

`datetime.date` values are records of numerals; `date.toordinal` is the
proleptic Gregorian ordinal, which is what Python's `date` subtraction
returns the difference of.
-/

/-- A calendar date as carried by Python `datetime.date`. -/
structure Date where
  year : Nat
  month : Nat
  day : Nat
deriving DecidableEq

/-- Gregorian leap-year test, as in `calendar.isleap` / `datetime`. -/
def isLeap (y : Nat) : Bool :=
  y % 4 == 0 && (y % 100 != 0 || y % 400 == 0)

/-- Number of days in month `m` of year `y` (the table used by `datetime`). -/
def monthLen (y m : Nat) : Nat :=
  if m = 2 then (if isLeap y then 29 else 28)
  else if m = 4 ∨ m = 6 ∨ m = 9 ∨ m = 11 then 30
  else 31

/-- Days in the year strictly before month `m`. -/
def daysBeforeMonth (y m : Nat) : Nat :=
  [0, 31, 59, 90, 120, 151, 181, 212, 243, 273, 304, 334].getD (m - 1) 0
    + (if 2 < m ∧ isLeap y then 1 else 0)

/-- Proleptic Gregorian ordinal of a date (`datetime.date.toordinal`):
day 1 is 0001-01-01. -/
def toOrdinal (dt : Date) : Nat :=
  365 * (dt.year - 1) + (dt.year - 1) / 4 + (dt.year - 1) / 400
    + daysBeforeMonth dt.year dt.month + dt.day - (dt.year - 1) / 100

/-- A date `datetime` accepts: year 1..9999, month 1..12, day within the
month. -/
def validDate (dt : Date) : Bool :=
  decide (1 ≤ dt.year ∧ dt.year ≤ 9999 ∧ 1 ≤ dt.month ∧ dt.month ≤ 12
    ∧ 1 ≤ dt.day ∧ dt.day ≤ monthLen dt.year dt.month)

/-! ## Parsing `%Y-%m-%d`

`datetime.strptime(dstr, "%Y-%m-%d")` matches `%Y` against exactly four
digits, `%m` against `1[0-2]|0[1-9]|[1-9]`, `%d` against
`3[01]|[12]\d|0[1-9]|[1-9]`, requires the whole string to be consumed,
and then the `datetime` constructor validates the day against the month
length and the year against 1..9999.
-/

/-- Numeric value of a digit character. -/
def digitVal (c : Char) : Nat := c.toNat - 48

/-- ASCII digit test. -/
def isDigitChar (c : Char) : Bool := '0' ≤ c && c ≤ '9'

/-- Month field of `strptime`: the regex `1[0-2]|0[1-9]|[1-9]`, returning
the value and the unconsumed rest. -/
def parseMonth : List Char → Option (Nat × List Char)
  | '1' :: c :: rest =>
    if '0' ≤ c && c ≤ '2' then some (10 + digitVal c, rest) else some (1, c :: rest)
  | '0' :: c :: rest => if '1' ≤ c && c ≤ '9' then some (digitVal c, rest) else none
  | c :: rest => if '1' ≤ c && c ≤ '9' then some (digitVal c, rest) else none
  | [] => none

/-- Day field of `strptime`: the regex `3[01]|[12]\d|0[1-9]|[1-9]`. -/
def parseDay : List Char → Option (Nat × List Char)
  | '3' :: c :: rest =>
    if c = '0' ∨ c = '1' then some (30 + digitVal c, rest) else some (3, c :: rest)
  | '1' :: c :: rest =>
    if isDigitChar c then some (10 + digitVal c, rest) else some (1, c :: rest)
  | '2' :: c :: rest =>
    if isDigitChar c then some (20 + digitVal c, rest) else some (2, c :: rest)
  | '0' :: c :: rest => if '1' ≤ c && c ≤ '9' then some (digitVal c, rest) else none
  | c :: rest => if '1' ≤ c && c ≤ '9' then some (digitVal c, rest) else none
  | [] => none

/-- `datetime.strptime(s, "%Y-%m-%d").date()`, `none` when `strptime` or
the `datetime` constructor raises. -/
def parseYMD (s : String) : Option Date :=
  match s.data with
  | y1 :: y2 :: y3 :: y4 :: '-' :: rest =>
    if isDigitChar y1 && isDigitChar y2 && isDigitChar y3 && isDigitChar y4 then
      let y := ((digitVal y1 * 10 + digitVal y2) * 10 + digitVal y3) * 10 + digitVal y4
      match parseMonth rest with
      | some (m, rest2) =>
        match rest2 with
        | '-' :: rest3 =>
          match parseDay rest3 with
          | some (d, rest4) =>
            if rest4.isEmpty ∧ 1 ≤ y ∧ d ≤ monthLen y m then some ⟨y, m, d⟩ else none
          | none => none
        | _ => none
      | none => none
    else none
  | _ => none

/-! ## Formatting `%Y-%m-%d` -/

/-- The character for digit `k % 10`. -/
def digitChar (k : Nat) : Char :=
  match k % 10 with
  | 0 => '0' | 1 => '1' | 2 => '2' | 3 => '3' | 4 => '4'
  | 5 => '5' | 6 => '6' | 7 => '7' | 8 => '8' | _ => '9'

/-- Two-digit zero-padded field (`%m`, `%d`; fields are at most two digits
for valid dates). -/
def pad2 (n : Nat) : List Char := [digitChar (n / 10), digitChar n]

/-- Four-digit zero-padded field (`%Y`; years are at most four digits for
valid dates). -/
def pad4 (n : Nat) : List Char :=
  [digitChar (n / 1000), digitChar (n / 100), digitChar (n / 10), digitChar n]

/-- `d.strftime("%Y-%m-%d")`. -/
def formatDate (dt : Date) : String :=
  ⟨pad4 dt.year ++ '-' :: (pad2 dt.month ++ '-' :: pad2 dt.day)⟩

/-- Recognizer for the shape `YYYY-MM-DD`: ten characters, digits and the
two dashes in the fixed positions. -/
def isYMDShape (s : String) : Bool :=
  match s.data with
  | [a, b, c, d, e, f, g, h, i, j] =>
    a.isDigit && b.isDigit && c.isDigit && d.isDigit && (e == '-')
      && f.isDigit && g.isDigit && (h == '-') && i.isDigit && j.isDigit
  | _ => false

/-! ## The recency filter -/

/-- `within_days(dstr, n)` from the script: parse the date string; keep the
entry when `(today_ist - dt).days <= n`; keep it as well when parsing
fails. -/
def within_days (today_ist : Date) (dstr : String) (n : Int) : Bool :=
  match parseYMD dstr with
  | some dt => decide ((toOrdinal today_ist : Int) - (toOrdinal dt : Int) ≤ n)
  | none => true

/-! ## Regular expressions

The classification rules only use: literal characters, small character
sets, `[A-Z]` under `re.IGNORECASE`, `?` on a character set, alternation,
and the word-boundary assertion `\b`.  `matchEnds` computes the set of end
positions of a match starting at a given position; collecting all end
positions gives exactly the backtracking semantics of `re.search` used as
a boolean test.  Literals compare case-insensitively (the script both
lower-cases the text and passes `re.I`); case folding is ASCII.
-/

/-- The regex fragment needed by the rule table. -/
inductive RE where
  | eps : RE
  | wb : RE
  | lit : Char → RE
  | cset : List Char → RE
  | alphaAZ : RE
  | seq : RE → RE → RE
  | alt : RE → RE → RE
  | opt : RE → RE
deriving DecidableEq

/-- Python `\w` on the ASCII range: letters, digits, underscore. -/
def isWordChar (c : Char) : Bool := c.isAlphanum || c == '_'

/-- Whether the character at position `i` exists and is a word character. -/
def wordAt (s : List Char) (i : Nat) : Bool :=
  match s.get? i with
  | some c => isWordChar c
  | none => false

/-- The `\b` assertion holds between positions `i-1` and `i`. -/
def boundary (s : List Char) (i : Nat) : Bool :=
  (if i = 0 then false else wordAt s (i - 1)) != wordAt s i

/-- All end positions of a match of `r` in `s` starting at position `i`. -/
def matchEnds (s : List Char) : RE → Nat → List Nat
  | .eps, i => [i]
  | .wb, i => if boundary s i then [i] else []
  | .lit c, i =>
    match s.get? i with
    | some d => if d.toLower = c.toLower then [i + 1] else []
    | none => []
  | .cset cs, i =>
    match s.get? i with
    | some d => if cs.contains d then [i + 1] else []
    | none => []
  | .alphaAZ, i =>
    match s.get? i with
    | some d => if d.toLower ≥ 'a' && d.toLower ≤ 'z' then [i + 1] else []
    | none => []
  | .seq a b, i => ((matchEnds s a i).map (matchEnds s b)).flatten
  | .alt a b, i => matchEnds s a i ++ matchEnds s b i
  | .opt a, i => i :: matchEnds s a i

/-- `re.search` as a boolean: some start position admits a match. -/
def reSearch (r : RE) (s : List Char) : Bool :=
  (List.range (s.length + 1)).any (fun i => !(matchEnds s r i).isEmpty)

/-- A literal word as a regex. -/
def strRE (w : String) : RE := (w.data.map RE.lit).foldr RE.seq RE.eps

/-- Alternation of a list of regexes. -/
def altsRE : List RE → RE
  | [] => RE.eps
  | [r] => r
  | r :: rs => RE.alt r (altsRE rs)

/-- The shape `\b( alt1 | ... | altn )\b` shared by every rule. -/
def wordRE (rs : List RE) : RE := RE.seq RE.wb (RE.seq (altsRE rs) RE.wb)

/-- The optional `[- ]?` fragment. -/
def dashSpaceOpt : RE := RE.opt (RE.cset ['-', ' '])

/-! ## The rule table -/

/-- `RULES` from the script: the ordered (pattern, category) pairs.  Each
pattern is transcribed alternative by alternative. -/
def RULES : List (RE × String) :=
  [ (wordRE [strRE "RBI", strRE "repo rate", strRE "CPI", strRE "WPI", strRE "inflation",
      strRE "GST", strRE "Budget", strRE "Fiscal", strRE "GDP", strRE "SEBI", strRE "bank",
      strRE "NBFC", strRE "monetary", strRE "bond", strRE "yield", strRE "FDI"], "Economy")
  , (wordRE [strRE "UN", strRE "UNFCCC", strRE "BRICS", strRE "SCO", strRE "G20",
      strRE "bilateral", strRE "MoU", strRE "agreement", strRE "treaty",
      RE.seq (strRE "Indo") (RE.seq dashSpaceOpt (strRE "Pacific")),
      strRE "MEA", strRE "summit", strRE "dialogue"], "International Relations")
  , (wordRE [strRE "environment", strRE "forest", strRE "wildlife", strRE "tiger",
      strRE "NTCA", strRE "conservation", strRE "pollution", strRE "climate",
      strRE "emission",
      RE.seq (strRE "biodiversit") (RE.alt (strRE "y") (strRE "ies"))], "Environment")
  , (wordRE [strRE "ISRO", strRE "space", strRE "satellite", strRE "launch", strRE "AI",
      strRE "quantum", strRE "semiconductor", strRE "science", strRE "technology",
      strRE "DST", strRE "MeitY", strRE "CSIR"], "Science & Tech")
  , (wordRE [strRE "cyclone", strRE "flood", strRE "earthquake", strRE "NDMA",
      strRE "disaster", strRE "NDRF", strRE "security", strRE "border", strRE "defence",
      strRE "police", strRE "cybersecurity"], "Security/Disaster")
  , (wordRE [strRE "Supreme Court", strRE "High Court",
      RE.seq (strRE "SC") RE.wb, RE.seq (strRE "HC") RE.wb,
      strRE "judgment", strRE "verdict", strRE "order"], "Judgments")
  , (wordRE [strRE "Bill", strRE "Act", strRE "Amendment", strRE "Ordinance",
      strRE "Parliament", strRE "Lok Sabha", strRE "Rajya Sabha", strRE "Gazette"],
      "Bills & Acts")
  , (wordRE [strRE "Yojana", strRE "Mission", strRE "Scheme",
      RE.seq (strRE "PM") (RE.seq dashSpaceOpt RE.alphaAZ),
      strRE "SAMARTH",
      RE.seq (strRE "PM") (RE.seq dashSpaceOpt (strRE "KISAN")),
      strRE "PMAY", strRE "AYUSH", strRE "NREGA", strRE "Ujjwala", strRE "UDAN",
      strRE "Awas"], "Schemes")
  , (wordRE [strRE "UNESCO", strRE "heritage", strRE "temple", strRE "festival",
      strRE "culture",
      RE.seq (strRE "archaeolog") (RE.alt (strRE "y") (strRE "ical")),
      strRE "ASI"], "History & Culture")
  , (wordRE [strRE "IMD", strRE "monsoon", strRE "heatwave",
      RE.seq (strRE "El") (RE.seq dashSpaceOpt (strRE "Niño")),
      RE.seq (strRE "La") (RE.seq dashSpaceOpt (strRE "Niña")),
      strRE "river", strRE "glacier", strRE "plateau", strRE "geomorphology",
      strRE "earth", strRE "geography"], "Geography")
  , (wordRE [strRE "NITI Aayog", strRE "index", strRE "report", strRE "survey",
      strRE "ranking", strRE "scorecard", strRE "white paper"], "Reports & Indices")
  , (wordRE [strRE "Cabinet", strRE "Constitution", strRE "federal", strRE "Centre",
      strRE "State", strRE "ministry", strRE "department", strRE "regulation",
      strRE "notification", strRE "guideline", strRE "policy"], "Polity")
  ]

/-- `FALLBACK` from the script. -/
def FALLBACK : String := "Polity"

/-- The combined, case-folded text `f"{title} {summary} {source_hint}".lower()`. -/
def textOf (title summary source_hint : String) : List Char :=
  (title ++ " " ++ summary ++ " " ++ source_hint).data.map Char.toLower

/-- The rule loop of `classify`: first matching rule wins. -/
def classifyAux : List (RE × String) → List Char → String
  | [], _ => FALLBACK
  | (p, c) :: rest, text => if reSearch p text then c else classifyAux rest text

/-- `classify(title, summary, source_hint)` from the script. -/
def classify (title summary source_hint : String) : String :=
  classifyAux RULES (textOf title summary source_hint)

/-! ## SHA-1 and `item_id`

`item_id` is `hashlib.sha1(base.encode("utf-8")).hexdigest()[:12]`.  SHA-1
is implemented here over lists of byte values (`Nat`s below 256), with all
32-bit arithmetic done modulo `2 ^ 32`.
-/

/-- UTF-8 encoding of one code point (what `str.encode("utf-8")` does per
character). -/
def utf8Bytes (c : Char) : List Nat :=
  let n := c.toNat
  if n < 128 then [n]
  else if n < 2048 then [192 + n / 64, 128 + n % 64]
  else if n < 65536 then [224 + n / 4096, 128 + n / 64 % 64, 128 + n % 64]
  else [240 + n / 262144, 128 + n / 4096 % 64, 128 + n / 64 % 64, 128 + n % 64]

/-- `s.encode("utf-8")` as a byte list. -/
def strBytes (s : String) : List Nat := s.data.flatMap utf8Bytes

/-- Left rotation of a 32-bit word. -/
def rotl (k n : Nat) : Nat :=
  ((n <<< k) % 4294967296) ||| (n >>> (32 - k))

/-- SHA-1 message padding: `0x80`, zeros to 56 mod 64, then the bit length
as eight big-endian bytes. -/
def sha1Pad (msg : List Nat) : List Nat :=
  let len := msg.length
  let zeros := (119 - len % 64) % 64
  let bits := 8 * len
  msg ++ 128 :: List.replicate zeros 0
    ++ [bits >>> 56 % 256, bits >>> 48 % 256, bits >>> 40 % 256, bits >>> 32 % 256,
        bits >>> 24 % 256, bits >>> 16 % 256, bits >>> 8 % 256, bits % 256]

/-- Big-endian 32-bit words from a byte list. -/
def toWords : List Nat → List Nat
  | b1 :: b2 :: b3 :: b4 :: rest => (((b1 * 256 + b2) * 256 + b3) * 256 + b4) :: toWords rest
  | _ => []

/-- Extend the 16 schedule words; each step appends
`rotl 1 (w[t-3] xor w[t-8] xor w[t-14] xor w[t-16])`. -/
def extendW (ws : List Nat) : Nat → List Nat
  | 0 => ws
  | fuel + 1 =>
    let n := ws.length
    extendW (ws ++ [rotl 1 (ws.getD (n - 3) 0 ^^^ ws.getD (n - 8) 0
      ^^^ ws.getD (n - 14) 0 ^^^ ws.getD (n - 16) 0)]) fuel

/-- The SHA-1 round function for round `t`. -/
def sha1F (t b c d : Nat) : Nat :=
  if t < 20 then (b &&& c) ||| ((b ^^^ 4294967295) &&& d)
  else if t < 40 then b ^^^ c ^^^ d
  else if t < 60 then (b &&& c) ||| (b &&& d) ||| (c &&& d)
  else b ^^^ c ^^^ d

/-- The SHA-1 round constant for round `t`. -/
def sha1K (t : Nat) : Nat :=
  if t < 20 then 1518500249
  else if t < 40 then 1859775393
  else if t < 60 then 2400959708
  else 3395469782

/-- The SHA-1 working state. -/
structure Sha1State where
  h0 : Nat
  h1 : Nat
  h2 : Nat
  h3 : Nat
  h4 : Nat
deriving DecidableEq

/-- One of the 80 rounds over one block. -/
def sha1Rounds (ws : List Nat) : Nat → Sha1State → Sha1State
  | 0, st => st
  | fuel + 1, st =>
    let t := 80 - (fuel + 1)
    let temp := (rotl 5 st.h0 + sha1F t st.h1 st.h2 st.h3 + st.h4 + sha1K t
      + ws.getD t 0) % 4294967296
    sha1Rounds ws fuel ⟨temp, st.h0, rotl 30 st.h1, st.h2, st.h3⟩

/-- Compress one 64-byte block into the state. -/
def sha1Block (st : Sha1State) (block : List Nat) : Sha1State :=
  let ws := extendW (toWords block) 64
  let r := sha1Rounds ws 80 st
  ⟨(st.h0 + r.h0) % 4294967296, (st.h1 + r.h1) % 4294967296,
   (st.h2 + r.h2) % 4294967296, (st.h3 + r.h3) % 4294967296,
   (st.h4 + r.h4) % 4294967296⟩

/-- Split the padded message into 64-byte blocks; the fuel is the list
length, which bounds the number of blocks. -/
def chunks64 : Nat → List Nat → List (List Nat)
  | 0, _ => []
  | fuel + 1, l => if l.isEmpty then [] else l.take 64 :: chunks64 fuel (l.drop 64)

/-- The SHA-1 initial state. -/
def sha1Init : Sha1State :=
  ⟨1732584193, 4023233417, 2562383102, 271733878, 3285377520⟩

/-- The five digest words of a byte message. -/
def sha1Digest (msg : List Nat) : Sha1State :=
  let padded := sha1Pad msg
  (chunks64 padded.length padded).foldl sha1Block sha1Init

/-- Lowercase hex digit for `k % 16`. -/
def hexDigit (k : Nat) : Char :=
  if k % 16 < 10 then digitChar (k % 16)
  else if k % 16 = 10 then 'a'
  else if k % 16 = 11 then 'b'
  else if k % 16 = 12 then 'c'
  else if k % 16 = 13 then 'd'
  else if k % 16 = 14 then 'e'
  else 'f'

/-- Eight lowercase hex characters of a 32-bit word, most significant
first. -/
def wordHex (w : Nat) : List Char :=
  (List.range 8).map (fun i => hexDigit (w >>> (4 * (7 - i))))

/-- `hashlib.sha1(msg).hexdigest()` as a character list. -/
def sha1HexChars (msg : List Nat) : List Char :=
  let st := sha1Digest msg
  ([st.h0, st.h1, st.h2, st.h3, st.h4].map wordHex).flatten

/-- `item_id(title, link)` from the script: the first 12 characters of the
SHA-1 hex digest of `title + "|" + link` encoded as UTF-8. -/
def item_id (title link : String) : String :=
  ⟨(sha1HexChars (strBytes (title ++ "|" ++ link))).take 12⟩

/-! ## Tag stripping and truncation

`re.sub("<[^<]+?>", "", summary)[:450]`: a match is a `<`, then a lazily
minimal non-empty run of non-`<` characters, then `>`.  So after a `<`,
the match ends at the first later `>` provided no `<` intervenes and at
least one character is consumed; otherwise the `<` is kept and scanning
resumes after it.
-/

/-- After the first consumed character: look for the closing `>`; fail on
`<` or end of input.  Returns the remainder after the match. -/
def scanRest : List Char → Option (List Char)
  | [] => none
  | c :: cs => if c = '>' then some cs else if c = '<' then none else scanRest cs

/-- Try to complete a tag match after an opening `<`: at least one
non-`<` character, then the closing `>`. -/
def scanTag : List Char → Option (List Char)
  | [] => none
  | c :: cs => if c = '<' then none else scanRest cs

/-- The substitution scan; the fuel is the input length, and every step
consumes at least one character. -/
def stripTagsGo : Nat → List Char → List Char
  | 0, l => l
  | _ + 1, [] => []
  | fuel + 1, c :: cs =>
    if c = '<' then
      match scanTag cs with
      | some rest => stripTagsGo fuel rest
      | none => c :: stripTagsGo fuel cs
    else c :: stripTagsGo fuel cs

/-- `re.sub("<[^<]+?>", "", ·)` over a character list. -/
def stripTags (l : List Char) : List Char := stripTagsGo l.length l

/-- `re.sub("<[^<]+?>", "", s)[:450]` from the record construction. -/
def normalizeSummary (s : String) : String := ⟨(stripTags s.data).take 450⟩

/-- Python `str.strip()`: drop whitespace from both ends. -/
def pyStrip (s : String) : String :=
  ⟨((s.data.dropWhile Char.isWhitespace).reverse.dropWhile Char.isWhitespace).reverse⟩

/-! ## `urlparse(...).netloc` and the domain fact -/

/-- Split a character list at its first `:`, when present. -/
def colonSplit : List Char → Option (List Char × List Char)
  | [] => none
  | c :: rest =>
    if c = ':' then some ([], rest)
    else (colonSplit rest).map (fun p => (c :: p.1, p.2))

/-- Characters allowed in a URL scheme. -/
def schemeChar (c : Char) : Bool := c.isAlphanum || c == '+' || c == '-' || c == '.'

/-- Drop a leading `scheme:` when the text before the first `:` is a valid
scheme (`urlsplit`): nonempty, starts with a letter, all scheme
characters.  Otherwise the input is unchanged. -/
def dropScheme (l : List Char) : List Char :=
  match colonSplit l with
  | some (before, after) =>
    match before with
    | [] => l
    | c :: cs => if c.isAlpha && (c :: cs).all schemeChar then after else l
  | none => l

/-- `urlparse(url).netloc`: after an optional scheme, when the remainder
starts with `//`, the characters up to the first `/`, `?` or `#`. -/
def netlocOf (url : String) : String :=
  match dropScheme url.data with
  | '/' :: '/' :: rest => ⟨rest.takeWhile (fun c => c != '/' && c != '?' && c != '#')⟩
  | _ => ""

/-- Python `str.replace("www.", "")`: remove every occurrence, scanning
left to right without overlap. -/
def replaceWWW : List Char → List Char
  | 'w' :: 'w' :: 'w' :: '.' :: rest => replaceWWW rest
  | c :: rest => c :: replaceWWW rest
  | [] => []

/-- The domain value used by `prelims_facts`:
`urlparse(link).netloc.replace('www.','')`. -/
def domainOf (link : String) : String := ⟨replaceWWW (netlocOf link).data⟩

/-- `prelims_facts(entry, date_str)` from the script: a Source line, a
Date line, and a Domain line when the replaced netloc is non-empty. -/
def prelims_facts (feed_name link date_str : String) : List String :=
  let netloc := domainOf link
  let base := ["Source: " ++ feed_name, "Date: " ++ date_str]
  if netloc = "" then base else base ++ ["Domain: " ++ netloc]

/-- `mains_angle(cat)` from the script: the static per-category sentence,
with the generic default of `dict.get`. -/
def mains_angle (cat : String) : String :=
  if cat = "Economy" then "Inflation–growth, inclusion, fiscal–monetary, reforms implications."
  else if cat = "International Relations" then
    "Strategic context for India; treaties, groupings, regional balance."
  else if cat = "Environment" then
    "Conservation vs development; climate resilience; regulatory capacity."
  else if cat = "Science & Tech" then
    "Tech sovereignty, public–private R&D, ethical and strategic issues."
  else if cat = "Security/Disaster" then
    "Preparedness, response, resilience, reforms in institutions."
  else if cat = "Judgments" then
    "Implications for rights, federalism, separation of powers."
  else if cat = "Bills & Acts" then
    "Objectives, key provisions, impact on stakeholders, challenges."
  else if cat = "Schemes" then
    "Targeting, funding, coverage, leakages, evaluation metrics."
  else if cat = "History & Culture" then
    "Cultural conservation, tourism, livelihoods, identity debates."
  else if cat = "Geography" then
    "Resource distribution, disaster risk, human–environment interactions."
  else if cat = "Reports & Indices" then
    "Methodology, findings, policy takeaways and limitations."
  else if cat = "Polity" then
    "Governance design, accountability, centre–state dynamics, implementation."
  else "Policy relevance and implementation challenges."

/-! ## Timestamps and `to_ist_ymd` -/

/-- The first six fields of a `time.struct_time` (what `datetime(*t[:6])`
consumes).  The fields are integers with no a-priori range. -/
structure TimeStruct where
  year : Int
  month : Int
  day : Int
  hour : Int
  minute : Int
  second : Int
deriving DecidableEq

/-- Whether `datetime(*t[:6], tzinfo=timezone.utc)` succeeds: year in
1..9999, month in 1..12, day within the month, time fields in range. -/
def validTS (t : TimeStruct) : Bool :=
  decide (1 ≤ t.year ∧ t.year ≤ 9999 ∧ 1 ≤ t.month ∧ t.month ≤ 12 ∧ 1 ≤ t.day
    ∧ 0 ≤ t.hour ∧ t.hour ≤ 23 ∧ 0 ≤ t.minute ∧ t.minute ≤ 59
    ∧ 0 ≤ t.second ∧ t.second ≤ 59
    ∧ t.day ≤ (monthLen t.year.toNat t.month.toNat : Int))

/-- The calendar successor of a date. -/
def nextDay (dt : Date) : Date :=
  if dt.day < monthLen dt.year dt.month then ⟨dt.year, dt.month, dt.day + 1⟩
  else if dt.month < 12 then ⟨dt.year, dt.month + 1, 1⟩
  else ⟨dt.year + 1, 1, 1⟩

/-- The date part of `.astimezone(IST)` for a valid UTC timestamp: adding
5 h 30 min moves to the next day exactly when the time of day reaches
18:30, and overflows (raising, hence falling back) only from
9999-12-31. -/
def shiftIST (t : TimeStruct) : Option Date :=
  let base : Date := ⟨t.year.toNat, t.month.toNat, t.day.toNat⟩
  if t.hour * 60 + t.minute + 330 < 1440 then some base
  else if t.year = 9999 ∧ t.month = 12 ∧ t.day = 31 then none
  else some (nextDay base)

/-- `to_ist_ymd(dt_struct, fallback_today)` from the script.  `today_ist`
stands for `datetime.now(IST).date()`. -/
def to_ist_ymd (dt_struct : Option TimeStruct) (fallback_today : Bool)
    (today_ist : Date) : Option String :=
  match dt_struct with
  | none => if fallback_today then some (formatDate today_ist) else none
  | some t =>
    if validTS t then
      match shiftIST t with
      | some dt => some (formatDate dt)
      | none => if fallback_today then some (formatDate today_ist) else none
    else if fallback_today then some (formatDate today_ist) else none

/-! ## Records and the pipeline -/

/-- A feed source from the static `FEEDS` configuration. -/
structure Feed where
  name : String
  url : String
  default_category : String
deriving DecidableEq

/-- The static `FEEDS` list of the script. -/
def FEEDS : List Feed :=
  [⟨"PIB Press Releases (English)",
    "https://pib.gov.in/RssMain.aspx?ModId=6&Lang=1&Regid=3", "Governance"⟩]

/-- A raw feed entry: the fields the loop reads with `e.get(...)`; absent
fields are `none`. -/
structure RawEntry where
  title : Option String
  link : Option String
  summary : Option String
  description : Option String
  published_parsed : Option TimeStruct
  updated_parsed : Option TimeStruct
deriving DecidableEq

/-- The normalized record `rec` built per entry. -/
structure Rec where
  feed_name : String
  title : String
  link : String
  summary : String
  date : String
deriving DecidableEq

/-- The output item of the frontend-format loop. -/
structure Item where
  id : String
  date : String
  category : String
  title : String
  source : String
  link : String
  summary : String
  prelims : List String
  why : String
  tags : List String
deriving DecidableEq

/-- Python `a or b` for an optional string: `b` when `a` is missing or
empty (falsy). -/
def orStr (a : Option String) (b : String) : String :=
  match a with
  | some s => if s = "" then b else s
  | none => b

/-- Python `a or b` for optional timestamps: a present `struct_time` is
always truthy. -/
def orTS (a b : Option TimeStruct) : Option TimeStruct :=
  match a with
  | some t => some t
  | none => b

/-- The body of the entry loop: build `rec` from one raw entry. -/
def normalizeEntry (feedName : String) (today_ist : Date) (e : RawEntry) : Rec :=
  { feed_name := feedName
  , title := pyStrip (e.title.getD "")
  , link := pyStrip (e.link.getD "")
  , summary := normalizeSummary (pyStrip (orStr e.summary (orStr e.description "")))
  , date := (to_ist_ymd (orTS e.published_parsed e.updated_parsed) true today_ist).getD "" }

/-- The feed loop: each feed either yields raw entries or fails with an
exception message; a failure contributes a warning line and no entries.
Returns the accumulated `entries` list and the warning lines in order. -/
def processFeeds (today_ist : Date) :
    List (Feed × Except String (List RawEntry)) → List Rec × List String
  | [] => ([], [])
  | (f, r) :: rest =>
    let acc := processFeeds today_ist rest
    match r with
    | .ok es => (es.map (normalizeEntry f.name today_ist) ++ acc.1, acc.2)
    | .error msg => (acc.1, ("[WARN] Failed " ++ f.name ++ ": " ++ msg) :: acc.2)

/-- The normalize-to-frontend loop body. -/
def itemize (e : Rec) : Item :=
  let cat := classify e.title e.summary e.feed_name
  { id := item_id e.title e.link
  , date := e.date
  , category := cat
  , title := e.title
  , source := e.feed_name
  , link := e.link
  , summary := e.summary
  , prelims := prelims_facts e.feed_name e.link e.date
  , why := "Mains angle: " ++ mains_angle cat
  , tags := [] }

/-- The dedup key `(it["title"], it["link"])`. -/
def dkey (it : Item) : String × String := (it.title, it.link)

/-- The dedup loop with its `seen` set (modelled as the list of keys seen
so far). -/
def dedupAux : List Item → List (String × String) → List Item
  | [], _ => []
  | it :: rest, seen =>
    if dkey it ∈ seen then dedupAux rest seen
    else it :: dedupAux rest (dkey it :: seen)

/-- The `deduped` list of the script. -/
def dedup (items : List Item) : List Item := dedupAux items []

/-- The sort key `(it["date"], it["category"], it["title"])`. -/
def sortKey (it : Item) : String × String × String := (it.date, it.category, it.title)

/-- Lexicographic order on key triples, the order Python uses to compare
key tuples of strings. -/
def tupLe (a b : String × String × String) : Prop :=
  a.1 < b.1 ∨ (a.1 = b.1 ∧ (a.2.1 < b.2.1 ∨ (a.2.1 = b.2.1 ∧ a.2.2 ≤ b.2.2)))

instance tupLe.instDecidable : ∀ a b, Decidable (tupLe a b) := fun _ _ => by
  unfold tupLe; infer_instance

/-- `a` may precede `b` in the reverse-sorted output: `key b ≤ key a`. -/
def sortRel (a b : Item) : Prop := tupLe (sortKey b) (sortKey a)

instance sortRel.instDecidable : ∀ a b, Decidable (sortRel a b) := fun _ _ => by
  unfold sortRel; infer_instance

instance sortRel.instIsTotal : IsTotal Item sortRel where
  total a b := by
    unfold sortRel tupLe
    rcases lt_trichotomy (sortKey b).1 (sortKey a).1 with h | h | h
    · exact Or.inl (Or.inl h)
    · rcases lt_trichotomy (sortKey b).2.1 (sortKey a).2.1 with h2 | h2 | h2
      · exact Or.inl (Or.inr ⟨h, Or.inl h2⟩)
      · rcases le_total (sortKey b).2.2 (sortKey a).2.2 with h3 | h3
        · exact Or.inl (Or.inr ⟨h, Or.inr ⟨h2, h3⟩⟩)
        · exact Or.inr (Or.inr ⟨h.symm, Or.inr ⟨h2.symm, h3⟩⟩)
      · exact Or.inr (Or.inr ⟨h.symm, Or.inl h2⟩)
    · exact Or.inr (Or.inl h)

instance sortRel.instIsTrans : IsTrans Item sortRel where
  trans a b c hab hbc := by
    unfold sortRel tupLe at *
    rcases hbc with h1 | ⟨h1, h2⟩
    · rcases hab with g1 | ⟨g1, _⟩
      · exact Or.inl (h1.trans g1)
      · exact Or.inl (g1 ▸ h1)
    · rcases hab with g1 | ⟨g1, g2⟩
      · exact Or.inl (h1 ▸ g1)
      · refine Or.inr ⟨h1.trans g1, ?_⟩
        rcases h2 with h2 | ⟨h2, h3⟩
        · rcases g2 with g2 | ⟨g2, _⟩
          · exact Or.inl (h2.trans g2)
          · exact Or.inl (g2 ▸ h2)
        · rcases g2 with g2 | ⟨g2, g3⟩
          · exact Or.inl (h2 ▸ g2)
          · exact Or.inr ⟨h2.trans g2, h3.trans g3⟩

/-- `deduped.sort(key=..., reverse=True)`: a stable sort placing larger
keys first. -/
def sortItems (l : List Item) : List Item := l.insertionSort sortRel

/-- The whole pipeline after fetching: normalize, filter to 14 days,
build items, dedup, sort. -/
def run (today_ist : Date) (feeds : List (Feed × Except String (List RawEntry))) :
    List Item :=
  let entries := (processFeeds today_ist feeds).1
  let kept := entries.filter (fun e => within_days today_ist e.date 14)
  sortItems (dedup (kept.map itemize))

/-- Lowercase hexadecimal characters. -/
def isLowerHex (c : Char) : Bool := c.isDigit || ('a' ≤ c && c ≤ 'f')

/-- A sample item used to instantiate universally quantified theorems. -/
def demoItemA : Item :=
  { id := "", date := "2026-10-10", category := "Polity", title := "T1", source := "S"
  , link := "L1", summary := "", prelims := [], why := "", tags := [] }

/-- A second sample item with a different dedup key. -/
def demoItemB : Item :=
  { id := "", date := "2026-10-11", category := "Economy", title := "T2", source := "S"
  , link := "L2", summary := "", prelims := [], why := "", tags := [] }

/-- A sample item sharing `demoItemA`'s (title, link) key but differing
elsewhere. -/
def demoItemA2 : Item :=
  { id := "", date := "2026-10-12", category := "Economy", title := "T1", source := "S"
  , link := "L1", summary := "x", prelims := [], why := "", tags := [] }

/-- A summary longer than the truncation limit. -/
def longSummary : String := ⟨List.replicate 600 'a'⟩

/-! ## Helper lemmas -/

/-- Every month has at least one day. -/
theorem monthLen_pos (y m : Nat) : 1 ≤ monthLen y m := by
  unfold monthLen
  split
  · split <;> omega
  · split <;> omega

/-- December has 31 days. -/
theorem monthLen_twelve (y : Nat) : monthLen y 12 = 31 := by
  simp [monthLen]

/-- `digitChar` always yields a digit character. -/
theorem digitChar_isDigit (k : Nat) : (digitChar k).isDigit = true := by
  have h : k % 10 < 10 := Nat.mod_lt _ (by norm_num)
  unfold digitChar
  generalize hg : k % 10 = r
  rw [hg] at h
  interval_cases r <;> rfl

/-- The successor of a valid date other than 9999-12-31 is valid. -/
theorem nextDay_valid (dt : Date) (h : validDate dt = true)
    (hno : ¬(dt.year = 9999 ∧ dt.month = 12 ∧ dt.day = 31)) :
    validDate (nextDay dt) = true := by
  simp only [validDate, decide_eq_true_eq] at h
  obtain ⟨h1, h2, h3, h4, h5, h6⟩ := h
  unfold nextDay
  split
  · next hlt =>
    simp only [validDate, decide_eq_true_eq]
    exact ⟨h1, h2, h3, h4, by omega, by omega⟩
  · next hge =>
    split
    · next hm =>
      simp only [validDate, decide_eq_true_eq]
      exact ⟨h1, h2, by omega, by omega, by omega, monthLen_pos _ _⟩
    · next hm =>
      have hm12 : dt.month = 12 := by omega
      have h31 : monthLen dt.year dt.month = 31 := by rw [hm12]; exact monthLen_twelve _
      have hd31 : dt.day = 31 := by omega
      have hy : dt.year ≠ 9999 := fun hy => hno ⟨hy, hm12, hd31⟩
      simp only [validDate, decide_eq_true_eq]
      exact ⟨by omega, by omega, by omega, by omega, by omega, monthLen_pos _ _⟩

/-- The date fields of a constructible timestamp form a valid date. -/
theorem validTS_base (t : TimeStruct) (hv : validTS t = true) :
    validDate ⟨t.year.toNat, t.month.toNat, t.day.toNat⟩ = true := by
  simp only [validTS, decide_eq_true_eq] at hv
  obtain ⟨a1, a2, a3, a4, a5, a6, a7, a8, a9, a10, a11, a12⟩ := hv
  simp only [validDate, decide_eq_true_eq]
  exact ⟨by omega, by omega, by omega, by omega, by omega, by omega⟩

/-- When the IST shift produces a date, that date is valid. -/
theorem shiftIST_valid (t : TimeStruct) (hv : validTS t = true) (dt : Date)
    (h : shiftIST t = some dt) : validDate dt = true := by
  unfold shiftIST at h
  split at h
  · exact Option.some.inj h ▸ validTS_base t hv
  · split at h
    · exact absurd h (by simp)
    · next hc hno =>
      have hbase := validTS_base t hv
      have hv' := hv
      simp only [validTS, decide_eq_true_eq] at hv'
      obtain ⟨a1, a2, a3, a4, a5, a6, a7, a8, a9, a10, a11, a12⟩ := hv'
      have hno' : ¬(t.year.toNat = 9999 ∧ t.month.toNat = 12 ∧ t.day.toNat = 31) := by
        intro hx
        obtain ⟨hx1, hx2, hx3⟩ := hx
        exact hno ⟨by omega, by omega, by omega⟩
      exact Option.some.inj h ▸ nextDay_valid _ hbase hno'

/-- The retention test unfolded: parse success with the day difference
bounded, or parse failure. -/
theorem within_days_iff (today : Date) (dstr : String) (n : Int) :
    within_days today dstr n = true ↔
      ((∃ dt, parseYMD dstr = some dt
          ∧ (toOrdinal today : Int) - (toOrdinal dt : Int) ≤ n)
        ∨ parseYMD dstr = none) := by
  unfold within_days
  cases h : parseYMD dstr with
  | none => simp
  | some dt => simp [decide_eq_true_eq]

/-! ## Claim C2: the recency filter -/

/-- C2.  An entry is retained by the recency filter iff its date string
parses with the calendar-day difference (run date minus entry date, via
ordinals) at most 14, or it fails to parse (fail-open). -/
theorem recency_filter_spec (today : Date) (l : List Rec) (e : Rec) :
    e ∈ l.filter (fun r => within_days today r.date 14) ↔
      e ∈ l ∧ ((∃ dt, parseYMD e.date = some dt
          ∧ (toOrdinal today : Int) - (toOrdinal dt : Int) ≤ 14)
        ∨ parseYMD e.date = none) := by
  rw [List.mem_filter]
  exact and_congr_right fun _ => within_days_iff today e.date 14

/-! ## Claim C10: the filter is one-sided -/

/-- C10.  Dates on or after the run date (however far in the future) are
always retained; an entry is dropped only when its date parses and lies
strictly more than 14 days before the run date. -/
theorem within_days_one_sided (today : Date) (dstr : String) :
    (∀ dt, parseYMD dstr = some dt → (toOrdinal today : Int) ≤ (toOrdinal dt : Int) →
      within_days today dstr 14 = true)
    ∧ (within_days today dstr 14 = false ↔
        ∃ dt, parseYMD dstr = some dt
          ∧ 14 < (toOrdinal today : Int) - (toOrdinal dt : Int)) := by
  constructor
  · intro dt hp hle
    rw [within_days_iff]
    exact Or.inl ⟨dt, hp, by omega⟩
  · unfold within_days
    cases h : parseYMD dstr with
    | none => simp
    | some dt => simp [decide_eq_false_iff_not]; omega

/-- Concrete instantiation of `within_days_one_sided`: a far-future date
is retained. -/
theorem within_days_one_sided_witness :
    within_days ⟨2020, 1, 1⟩ "2100-01-01" 14 = true :=
  (within_days_one_sided ⟨2020, 1, 1⟩ "2100-01-01").1 ⟨2100, 1, 1⟩ (by decide) (by decide)

/-! ## Claim C8: date normalization is total -/

/-- C8.  With the fallback enabled, `to_ist_ymd` always returns `some`
formatted valid date: the shifted source date when the timestamp is
present and constructible, and the current IST date when the timestamp is
absent, rejected, or overflows; the formatted string always has the
`YYYY-MM-DD` shape. -/
theorem to_ist_ymd_total :
    (∀ (ts : Option TimeStruct) (today : Date), validDate today = true →
        ∃ dt, validDate dt = true ∧ to_ist_ymd ts true today = some (formatDate dt))
    ∧ (∀ today, to_ist_ymd none true today = some (formatDate today))
    ∧ (∀ t today, validTS t = false → to_ist_ymd (some t) true today = some (formatDate today))
    ∧ (∀ dt, isYMDShape (formatDate dt) = true) := by
  refine ⟨?_, ?_, ?_, ?_⟩
  · intro ts today htoday
    match ts with
    | none => exact ⟨today, htoday, rfl⟩
    | some t =>
      by_cases hv : validTS t = true
      · cases hs : shiftIST t with
        | none => exact ⟨today, htoday, by simp [to_ist_ymd, hv, hs]⟩
        | some dt => exact ⟨dt, shiftIST_valid t hv dt hs, by simp [to_ist_ymd, hv, hs]⟩
      · exact ⟨today, htoday, by simp [to_ist_ymd, hv]⟩
  · intro today; rfl
  · intro t today hv; simp [to_ist_ymd, hv]
  · intro dt
    simp [isYMDShape, formatDate, pad4, pad2, digitChar_isDigit]

/-- Concrete instantiation of `to_ist_ymd_total`: a missing timestamp
yields the formatted run date. -/
theorem to_ist_ymd_total_witness :
    ∃ dt, validDate dt = true
      ∧ to_ist_ymd none true ⟨2026, 10, 12⟩ = some (formatDate dt) :=
  to_ist_ymd_total.1 none ⟨2026, 10, 12⟩ (by decide)

/-! ## Claim C1: classification -/

/-- The rule loop returns the category of rule `i` when rule `i` matches
and no earlier rule does. -/
theorem classifyAux_first (L : List (RE × String)) (text : List Char) :
    ∀ (i : Nat) (hi : i < L.length),
      reSearch (L.get ⟨i, hi⟩).1 text = true →
      (∀ j (hj : j < i), reSearch (L.get ⟨j, Nat.lt_trans hj hi⟩).1 text = false) →
      classifyAux L text = (L.get ⟨i, hi⟩).2 := by
  induction L with
  | nil => intro i hi; exact absurd hi (by simp)
  | cons hd rest ih =>
    obtain ⟨p, c⟩ := hd
    intro i hi hs hprev
    match i with
    | 0 =>
      simp only [List.get] at hs ⊢
      unfold classifyAux
      rw [hs]
      rfl
    | n + 1 =>
      have h0 : reSearch p text = false := hprev 0 (Nat.succ_pos n)
      unfold classifyAux
      rw [h0]
      simp only [List.get] at hs ⊢
      exact ih n (Nat.lt_of_succ_lt_succ hi) hs
        (fun j hj => hprev (j + 1) (Nat.succ_lt_succ hj))

/-- The rule loop falls through to the default when no rule matches. -/
theorem classifyAux_nomatch (L : List (RE × String)) (text : List Char)
    (h : ∀ r ∈ L, reSearch r.1 text = false) : classifyAux L text = FALLBACK := by
  induction L with
  | nil => rfl
  | cons hd rest ih =>
    obtain ⟨p, c⟩ := hd
    unfold classifyAux
    rw [h (p, c) (List.mem_cons_self _ _)]
    exact ih fun r hr => h r (List.mem_cons_of_mem _ hr)

/-- C1.  `classify` searches the case-folded concatenation
`title summary source` against the ordered rule table and returns the
first matching rule's category, defaulting to "Polity"; text containing
both "GST" and "Bill" classifies as "Economy" (Economy precedes
Bills & Acts). -/
theorem classify_first_match :
    (∀ t s h (i : Nat) (hi : i < RULES.length),
        reSearch (RULES.get ⟨i, hi⟩).1 (textOf t s h) = true →
        (∀ j (hj : j < i), reSearch (RULES.get ⟨j, Nat.lt_trans hj hi⟩).1 (textOf t s h) = false) →
        classify t s h = (RULES.get ⟨i, hi⟩).2)
    ∧ (∀ t s h, (∀ r ∈ RULES, reSearch r.1 (textOf t s h) = false) →
        classify t s h = "Polity")
    ∧ classify "GST Bill" "" "" = "Economy" := by
  refine ⟨?_, ?_, ?_⟩
  · intro t s h i hi hs hprev
    exact classifyAux_first RULES (textOf t s h) i hi hs hprev
  · intro t s h hall
    exact classifyAux_nomatch RULES (textOf t s h) hall
  · decide

/-- Concrete instantiation of `classify_first_match` at rule 0. -/
theorem classify_first_match_witness : classify "GST Bill" "" "" = "Economy" :=
  classify_first_match.1 "GST Bill" "" "" 0 (by decide) (by decide)
    (fun j hj => absurd hj (Nat.not_lt_zero j))

/-! ## Claim C3: deduplication -/

/-- The dedup loop output is a sublist of its input (relative order is
preserved, elements only dropped). -/
theorem dedupAux_sublist : ∀ (l : List Item) (seen : List (String × String)),
    (dedupAux l seen).Sublist l := by
  intro l
  induction l with
  | nil => intro seen; simp [dedupAux]
  | cons x rest ih =>
    intro seen
    unfold dedupAux
    split
    · exact (ih seen).cons x
    · exact (ih _).cons₂ x

/-- Every retained item has a key outside `seen` and is the first input
item bearing its key. -/
theorem mem_dedupAux : ∀ (l : List Item) (seen : List (String × String)) (it : Item),
    it ∈ dedupAux l seen →
      dkey it ∉ seen ∧ l.find? (fun x => decide (dkey x = dkey it)) = some it := by
  intro l
  induction l with
  | nil => intro seen it h; exact absurd h (by simp [dedupAux])
  | cons x rest ih =>
    intro seen it hmem
    unfold dedupAux at hmem
    split at hmem
    · next hx =>
      obtain ⟨hns, hfind⟩ := ih seen it hmem
      have hne : ¬(dkey x = dkey it) := fun h => hns (h ▸ hx)
      refine ⟨hns, ?_⟩
      rw [List.find?_cons_of_neg _ (by simpa using hne)]
      exact hfind
    · next hx =>
      rcases List.mem_cons.mp hmem with rfl | hmem2
      · exact ⟨hx, List.find?_cons_of_pos _ (by simp)⟩
      · obtain ⟨hns, hfind⟩ := ih (dkey x :: seen) it hmem2
        have hne : ¬(dkey x = dkey it) := fun h => hns (h ▸ List.mem_cons_self _ _)
        refine ⟨fun hs => hns (List.mem_cons_of_mem _ hs), ?_⟩
        rw [List.find?_cons_of_neg _ (by simpa using hne)]
        exact hfind

/-- The keys of the dedup output contain no duplicates. -/
theorem dedupAux_nodup : ∀ (l : List Item) (seen : List (String × String)),
    ((dedupAux l seen).map dkey).Nodup := by
  intro l
  induction l with
  | nil => intro seen; simp [dedupAux]
  | cons x rest ih =>
    intro seen
    unfold dedupAux
    split
    · exact ih seen
    · refine List.Nodup.cons ?_ (ih _)
      intro hmem
      obtain ⟨y, hy, hky⟩ := List.mem_map.mp hmem
      exact (mem_dedupAux rest _ y hy).1 (hky ▸ List.mem_cons_self _ _)

/-- Every input key outside `seen` survives into the dedup output. -/
theorem dedupAux_covers : ∀ (l : List Item) (seen : List (String × String)) (it : Item),
    it ∈ l → dkey it ∉ seen → ∃ it2, it2 ∈ dedupAux l seen ∧ dkey it2 = dkey it := by
  intro l
  induction l with
  | nil => intro seen it h; exact absurd h (by simp)
  | cons x rest ih =>
    intro seen it hmem hns
    rcases List.mem_cons.mp hmem with rfl | hmem2
    · unfold dedupAux
      rw [if_neg hns]
      exact ⟨it, List.mem_cons_self _ _, rfl⟩
    · unfold dedupAux
      split
      · exact ih seen it hmem2 hns
      · next hx =>
        by_cases hk : dkey it = dkey x
        · exact ⟨x, List.mem_cons_self _ _, hk.symm⟩
        · obtain ⟨it2, h2, hk2⟩ := ih (dkey x :: seen) it hmem2
            (by simp [hns, fun h => hk h])
          exact ⟨it2, List.mem_cons_of_mem _ h2, hk2⟩

/-- C3.  The dedup stage keeps the first occurrence of each (title, link)
key, drops every later duplicate, and preserves relative order: the
output keys are duplicate-free, the output is a sublist of the input,
every input key is represented, and every output item is the first input
item with its key; consequently no two items of the final pipeline output
share a (title, link) pair. -/
theorem dedup_spec (l : List Item) :
    ((dedup l).map dkey).Nodup
    ∧ (dedup l).Sublist l
    ∧ (∀ it, it ∈ l → ∃ it2, it2 ∈ dedup l ∧ dkey it2 = dkey it)
    ∧ (∀ it, it ∈ dedup l → l.find? (fun x => decide (dkey x = dkey it)) = some it)
    ∧ (∀ (today : Date) (feeds : List (Feed × Except String (List RawEntry))),
        ((run today feeds).map dkey).Nodup) := by
  refine ⟨dedupAux_nodup l [], dedupAux_sublist l [],
    fun it hit => dedupAux_covers l [] it hit (by simp),
    fun it hit => (mem_dedupAux l [] it hit).2, ?_⟩
  intro today feeds
  have hperm := List.perm_insertionSort sortRel
    (dedup ((((processFeeds today feeds).1).filter
      (fun e => within_days today e.date 14)).map itemize))
  exact ((hperm.map dkey).nodup_iff).mpr (dedupAux_nodup _ [])

/-- Concrete instantiation of `dedup_spec`: with a repeated key the first
occurrence is the one found. -/
theorem dedup_spec_witness :
    List.find? (fun x => decide (dkey x = dkey demoItemA))
        [demoItemA, demoItemB, demoItemA2] = some demoItemA :=
  (dedup_spec [demoItemA, demoItemB, demoItemA2]).2.2.2.1 demoItemA (by decide)

/-! ## Claim C4: sorting -/

/-- C4.  In the sorted output (and hence in the final pipeline output),
each item's (date, category, title) key is greater than or equal to the
next item's key: adjacent items are in descending lexicographic order. -/
theorem sort_adjacent :
    (∀ (l : List Item) (i : Nat) (hi : i + 1 < (sortItems l).length),
      tupLe (sortKey ((sortItems l).get ⟨i + 1, hi⟩))
        (sortKey ((sortItems l).get ⟨i, Nat.lt_of_succ_lt hi⟩)))
    ∧ (∀ (today : Date) (feeds : List (Feed × Except String (List RawEntry)))
        (i : Nat) (hi : i + 1 < (run today feeds).length),
      tupLe (sortKey ((run today feeds).get ⟨i + 1, hi⟩))
        (sortKey ((run today feeds).get ⟨i, Nat.lt_of_succ_lt hi⟩))) := by
  constructor
  · intro l i hi
    have hs : (sortItems l).Pairwise sortRel := List.sorted_insertionSort sortRel l
    exact List.pairwise_iff_get.mp hs ⟨i, Nat.lt_of_succ_lt hi⟩ ⟨i + 1, hi⟩
      (by exact Nat.lt_succ_self i)
  · intro today feeds i hi
    have hs : (run today feeds).Pairwise sortRel := List.sorted_insertionSort sortRel _
    exact List.pairwise_iff_get.mp hs ⟨i, Nat.lt_of_succ_lt hi⟩ ⟨i + 1, hi⟩
      (by exact Nat.lt_succ_self i)

/-! ## Claim C5: identifiers -/

/-- `hexDigit` always yields a lowercase hex character. -/
theorem hexDigit_lower (k : Nat) : isLowerHex (hexDigit k) = true := by
  have h : k % 16 < 16 := Nat.mod_lt _ (by norm_num)
  unfold hexDigit
  generalize hg : k % 16 = r
  rw [hg] at h
  interval_cases r <;> rfl

/-- The hex digest always has 40 characters. -/
theorem sha1HexChars_length (msg : List Nat) : (sha1HexChars msg).length = 40 := by
  simp [sha1HexChars, wordHex]

/-- Every character of the hex digest is lowercase hex. -/
theorem mem_sha1HexChars (msg : List Nat) (c : Char) (hc : c ∈ sha1HexChars msg) :
    isLowerHex c = true := by
  unfold sha1HexChars at hc
  simp only [List.mem_flatten, List.mem_map] at hc
  obtain ⟨l, ⟨w, hw, rfl⟩, hcl⟩ := hc
  unfold wordHex at hcl
  simp only [List.mem_map] at hcl
  obtain ⟨i, hi, rfl⟩ := hcl
  exact hexDigit_lower _

/-- C5.  `item_id` is the first 12 characters of the SHA-1 hex digest of
`title + "|" + link`; it is always 12 characters, all lowercase hex, and
depends only on the (title, link) pair. -/
theorem item_id_spec :
    (∀ t l, item_id t l = ⟨(sha1HexChars (strBytes (t ++ "|" ++ l))).take 12⟩)
    ∧ (∀ t l, (item_id t l).length = 12)
    ∧ (∀ t l c, c ∈ (item_id t l).data → isLowerHex c = true)
    ∧ (∀ a b : Item, a.title = b.title → a.link = b.link →
        item_id a.title a.link = item_id b.title b.link) := by
  refine ⟨fun _ _ => rfl, ?_, ?_, ?_⟩
  · intro t l
    show ((sha1HexChars (strBytes (t ++ "|" ++ l))).take 12).length = 12
    rw [List.length_take, sha1HexChars_length]
    decide
  · intro t l c hc
    exact mem_sha1HexChars _ c (List.take_subset _ _ hc)
  · intro a b h1 h2
    rw [h1, h2]

/-- Concrete instantiation of `item_id_spec`: a digest character is hex,
and equal keys give equal ids. -/
theorem item_id_spec_witness :
    isLowerHex '9' = true
    ∧ item_id demoItemA.title demoItemA.link = item_id demoItemA2.title demoItemA2.link :=
  ⟨item_id_spec.2.2.1 "a" "b" '9' (by decide),
    item_id_spec.2.2.2 demoItemA demoItemA2 rfl rfl⟩

/-! ## Claim C6: summary normalization -/

/-- C6.  The normalized summary is the tag-stripped input hard-truncated
to 450 characters: never longer than 450, exactly 450 when the stripped
text reaches 450, and `"<b>Hello</b> World"` becomes `"Hello World"`. -/
theorem summary_truncation_spec :
    (∀ s, normalizeSummary s = ⟨(stripTags s.data).take 450⟩)
    ∧ (∀ s, (normalizeSummary s).length ≤ 450)
    ∧ (∀ s, 450 ≤ (stripTags s.data).length → (normalizeSummary s).length = 450)
    ∧ normalizeSummary "<b>Hello</b> World" = "Hello World" := by
  refine ⟨fun _ => rfl, ?_, ?_, by decide⟩
  · intro s
    show ((stripTags s.data).take 450).length ≤ 450
    rw [List.length_take]
    omega
  · intro s h
    show ((stripTags s.data).take 450).length = 450
    rw [List.length_take]
    omega

/-- Concrete instantiation of `summary_truncation_spec`: a 600-character
summary is cut to exactly 450. -/
theorem summary_truncation_spec_witness :
    (normalizeSummary longSummary).length = 450 :=
  summary_truncation_spec.2.2.1 longSummary (by decide)

/-! ## Claim C7: prelims facts

The claim says only a leading `www.` prefix is removed from the host, but
the script runs `netloc.replace('www.','')`, which removes every
occurrence of the substring; a host such as `awww.example.com` (whose
`www.` is not a leading prefix) refutes the claim as stated.
-/

/-- C7 counterexample.  For link `http://awww.example.com/x` the code
emits `Domain: aexample.com`, not the claimed
`Domain: awww.example.com` (the host with no leading `www.` prefix to
remove). -/
theorem prelims_facts_counterexample :
    prelims_facts "PIB Press Releases (English)" "http://awww.example.com/x" "2026-10-10"
      = ["Source: PIB Press Releases (English)", "Date: 2026-10-10", "Domain: aexample.com"]
    ∧ prelims_facts "PIB Press Releases (English)" "http://awww.example.com/x" "2026-10-10"
      ≠ ["Source: PIB Press Releases (English)", "Date: 2026-10-10",
          "Domain: awww.example.com"] := by
  decide

/-- C7 amended.  The prelims list is the fixed ordered pair
`Source:`, `Date:`, followed by a `Domain:` line holding the link's host
with every occurrence of `www.` removed, exactly when that replaced host
is non-empty. -/
theorem prelims_facts_amended (f l d : String) :
    (domainOf l = "" → prelims_facts f l d = ["Source: " ++ f, "Date: " ++ d])
    ∧ (domainOf l ≠ "" →
        prelims_facts f l d
          = ["Source: " ++ f, "Date: " ++ d, "Domain: " ++ domainOf l]) := by
  constructor
  · intro h
    simp [prelims_facts, h]
  · intro h
    simp [prelims_facts, h]

/-- Concrete instantiation of `prelims_facts_amended` on the PIB
scenario link. -/
theorem prelims_facts_amended_witness :
    prelims_facts "PIB Press Releases (English)" "https://pib.gov.in/x" "2026-10-10"
      = ["Source: " ++ "PIB Press Releases (English)", "Date: " ++ "2026-10-10",
          "Domain: " ++ domainOf "https://pib.gov.in/x"] :=
  (prelims_facts_amended "PIB Press Releases (English)" "https://pib.gov.in/x"
    "2026-10-10").2 (by decide)

/-! ## Claim C9: per-feed failure isolation -/

/-- Inserting a failing feed anywhere leaves the entries unchanged and
adds its warning line. -/
theorem processFeeds_insert_err (today : Date) (f : Feed) (msg : String)
    (post : List (Feed × Except String (List RawEntry))) :
    ∀ pre, (processFeeds today (pre ++ (f, Except.error msg) :: post)).1
        = (processFeeds today (pre ++ post)).1
      ∧ ("[WARN] Failed " ++ f.name ++ ": " ++ msg)
          ∈ (processFeeds today (pre ++ (f, Except.error msg) :: post)).2 := by
  intro pre
  induction pre with
  | nil =>
    refine ⟨rfl, ?_⟩
    show _ ∈ ("[WARN] Failed " ++ f.name ++ ": " ++ msg) :: _
    exact List.mem_cons_self _ _
  | cons p pre ih =>
    obtain ⟨pf, pr⟩ := p
    obtain ⟨ih1, ih2⟩ := ih
    cases pr with
    | ok es =>
      constructor
      · exact congrArg (fun x => es.map (normalizeEntry pf.name today) ++ x) ih1
      · exact ih2
    | error m =>
      constructor
      · exact ih1
      · exact List.mem_cons_of_mem _ ih2

/-- C9.  A failing feed contributes zero entries and a warning naming the
feed, and leaves the rest of the pipeline unchanged: the accumulated
entries, and hence the whole output, are the same as without the failing
feed. -/
theorem feed_failure_isolated (today : Date)
    (pre post : List (Feed × Except String (List RawEntry))) (f : Feed) (msg : String) :
    (processFeeds today (pre ++ (f, Except.error msg) :: post)).1
      = (processFeeds today (pre ++ post)).1
    ∧ ("[WARN] Failed " ++ f.name ++ ": " ++ msg)
        ∈ (processFeeds today (pre ++ (f, Except.error msg) :: post)).2
    ∧ run today (pre ++ (f, Except.error msg) :: post) = run today (pre ++ post) := by
  obtain ⟨h1, h2⟩ := processFeeds_insert_err today f msg post pre
  refine ⟨h1, h2, ?_⟩
  simp only [run]
  rw [h1]

/-- Concrete instantiation of `sort_adjacent` on a two-item list. -/
theorem sort_adjacent_witness :
    tupLe (sortKey ((sortItems [demoItemA, demoItemB]).get
        ⟨1, by simp only [sortItems, List.length_insertionSort]; decide⟩))
      (sortKey ((sortItems [demoItemA, demoItemB]).get
        ⟨0, by simp only [sortItems, List.length_insertionSort]; decide⟩)) :=
  sort_adjacent.1 [demoItemA, demoItemB] 0
    (by simp only [sortItems, List.length_insertionSort]; decide)

end FetchFeeds
